import Mathlib

/-!
Verification of the frame-sampling core of `lintel` (`src/lintel/core/video_decode.c`)
against its natural-language specification.

The C code is shallowly embedded:
* byte buffers become functions `Nat → Nat` (index to byte value), `memcpy`
  becomes a pointwise overwrite reading the pre-state (in every call made by
  this code the source range `[0, len)` and the destination range
  `[dstOff, dstOff + len)` are disjoint, because `dstOff ≥ len` always holds,
  so reading the pre-state is exact);
* the video stream becomes a list of PTS values (`List Int`), `receive_frame`
  pops the next one or signals end of stream;
* C `int32_t`/`int64_t` values become `Int`, C `uint32_t` sizes become `Nat`
  (theorems carry explicit range hypotheses where the 32-bit regime matters);
* C integer division (truncation toward zero) becomes `Int.tdiv`;
* a failed `assert` becomes an explicit error outcome.
-/

namespace VideoDecode

/-- Model of `memcpy(buf + dstOff, buf, len)` as used by `loop_to_buffer_end`:
bytes `[dstOff, dstOff + len)` are overwritten with bytes `[0, len)` of the
pre-state.  All call sites have `dstOff ≥ len`, so source and destination do
not overlap and reading the pre-state matches C `memcpy`. -/
def memcpyF (buf : Nat → Nat) (dstOff len : Nat) : Nat → Nat :=
  fun i => if dstOff ≤ i ∧ i < dstOff + len then buf (i - dstOff) else buf i

/-- Result of `loop_to_buffer_end`: the final buffer plus whether the
"No frames received after seek." diagnostic was emitted (the
`frame_number == 0` early-return path). -/
structure PadResult where
  buf : Nat → Nat
  noFramesError : Bool

/-- The `while (remaining_frames > 0)` loop of `loop_to_buffer_end`
(video_decode.c lines 208-218).  `remaining` is the C `int32_t`
`remaining_frames` (it can go negative, exiting the loop); `bytes_to_copy`
is threaded exactly as in the source.  The `0 < frame_number` conjunct in
the guard reflects the caller: `loop_to_buffer_end` returns before the loop
when `frame_number == 0`, and `frame_number` is never negative at any call
site (it is a loop counter), so for `frame_number ≥ 1` the guard is exactly
`remaining_frames > 0`. -/
def loopCopy (dest : Nat → Nat) (copied_bytes bytes_to_copy : Nat)
    (remaining : Int) (frame_number bytes_per_frame : Nat) : Nat → Nat :=
  if h : 0 < remaining ∧ 0 < frame_number then
    let btc : Nat := if remaining < (frame_number : Int)
      then remaining.toNat * bytes_per_frame else bytes_to_copy
    loopCopy (memcpyF dest copied_bytes btc) (copied_bytes + btc) btc
      (remaining - frame_number) frame_number bytes_per_frame
  else dest
termination_by remaining.toNat
decreasing_by omega

/-- `loop_to_buffer_end` (video_decode.c lines 195-219): pads the output
buffer by cyclically replaying the frames already written.  `frame_number`
is the number of frames already in `dest` (a non-negative loop counter at
every call site, hence `Nat`). -/
def loop_to_buffer_end (dest : Nat → Nat) (copied_bytes : Nat)
    (frame_number : Nat) (bytes_per_frame : Nat)
    (num_requested_frames : Int) : PadResult :=
  if frame_number = 0 then ⟨dest, true⟩
  else ⟨loopCopy dest copied_bytes copied_bytes
          (num_requested_frames - frame_number) frame_number bytes_per_frame,
        false⟩

/-- Two's-complement truncation of an `int64_t` to `int32_t`.  Performed by
`seek_memory` on its offset argument (line 294) and by
`decode_video_from_frame_nums` when the `int64_t` PTS quantities of
lines 610 and 615 are assigned to the `int32_t` `current_frame_index`
(declared at line 556). -/
def int32_trunc (x : Int) : Int := (x + 2 ^ 31) % 2 ^ 32 - 2 ^ 31

/-- Post-seek frame-index reconstruction (video_decode.c lines 609-617 plus
the assertion at line 623).  C `int` division truncates toward zero, hence
`Int.tdiv`.  `current_frame_index` is `int32_t` (line 556): in
average-duration mode the `int64_t` quotient `pts / avg_frame_duration` is
narrowed to `int32_t` on assignment (line 610) and then clamped to `fn0`
(lines 611-612) before `assert(current_frame_index <= frame_numbers[0])`
runs; in raw-timebase mode the `int64_t` PTS itself is narrowed on
assignment (line 615) before the `int32_t` division by `time_unit`
(line 616).  `none` models a failed assertion. -/
def reconcile (pts avg_frame_duration time_unit fn0 : Int)
    (use_frame : Bool) : Option Int :=
  if use_frame then
    let idx0 := int32_trunc (pts.tdiv avg_frame_duration)
    let idx := if idx0 > fn0 then fn0 else idx0
    if idx ≤ fn0 then some idx else none
  else
    let idx0 := int32_trunc pts
    let idx := idx0.tdiv time_unit
    if idx ≤ fn0 then some idx else none

/-- The remainder of the post-seek prologue (lines 627-643): if the
reconstructed index equals the first target, the decoded frame is packed and
the output counter advances to 1; then `current_frame_index` is incremented
and `prev_pts` is set to the decoded frame's PTS.  Returns
`(current_frame_index, prev_pts, out_frame_index)`, or `none` on a failed
assertion. -/
def seek_prologue (pts avg_frame_duration time_unit fn0 : Int)
    (use_frame : Bool) : Option (Int × Int × Nat) :=
  match reconcile pts avg_frame_duration time_unit fn0 use_frame with
  | none => none
  | some idx => some (idx + 1, pts, if idx = fn0 then 1 else 0)

/-- Outcome of one execution of a sampling entry point at the frame/event
level: `packed` lists, in output order, the stream position of the frame
packed into each output slot (`none` means the reused frame handle was never
filled by a decode); `receives` counts `receive_frame` calls; `padded` and
`padFrames` record an invocation of `loop_to_buffer_end` together with its
`frame_number` argument; `assertFailed` records a failed `assert`. -/
structure DecodeResult where
  packed : List (Option Nat)
  receives : Nat
  padded : Bool
  padFrames : Nat
  assertFailed : Bool
deriving DecidableEq, Repr

/-- Duplicate-PTS filter step (video_decode.c lines 695-698): the running
frame-index counter advances exactly when the new PTS strictly exceeds the
PTS at which it last advanced. -/
def advance_step (current prevPts pts : Int) : Int × Int :=
  if pts > prevPts then (current + 1, pts) else (current, prevPts)

/-- Result of one inner scanning loop: either the stop condition was reached
(`ok`, carrying the remaining stream, the position of the next frame to
decode, the updated counter state, the frame in hand with its PTS, and the
receive count), or the stream ran out (`eof`). -/
inductive InnerResult
  | ok (stream : List Int) (pos : Nat) (current prevPts : Int)
      (lastFrame : Option Nat) (framePts : Int) (receives : Nat)
  | eof (receives : Nat)
deriving DecidableEq

/-- Average-duration-mode inner scan (lines 662-701): decode until the
running frame-index counter exceeds the desired frame number, filtering
duplicate PTS via `advance_step`. -/
def scan_avg (stream : List Int) (pos : Nat) (current prevPts : Int)
    (lastFrame : Option Nat) (framePts desired : Int) (receives : Nat) :
    InnerResult :=
  match stream with
  | [] =>
      if current ≤ desired then InnerResult.eof (receives + 1)
      else InnerResult.ok [] pos current prevPts lastFrame framePts receives
  | pts :: rest =>
      if current ≤ desired then
        scan_avg rest (pos + 1) (advance_step current prevPts pts).1
          (advance_step current prevPts pts).2 (some pos) pts desired
          (receives + 1)
      else InnerResult.ok (pts :: rest) pos current prevPts lastFrame
        framePts receives

/-- Raw-timebase-mode inner scan (lines 702-738): decode until the frame in
hand has PTS exceeding `desired * time_unit`.  The frame-index counter is
not advanced (its increment is commented out in the source); only
`prev_pts` is maintained. -/
def scan_raw (stream : List Int) (pos : Nat) (current prevPts : Int)
    (lastFrame : Option Nat) (framePts bound : Int) (receives : Nat) :
    InnerResult :=
  match stream with
  | [] =>
      if framePts ≤ bound then InnerResult.eof (receives + 1)
      else InnerResult.ok [] pos current prevPts lastFrame framePts receives
  | pts :: rest =>
      if framePts ≤ bound then
        scan_raw rest (pos + 1) current
          (if pts > prevPts then pts else prevPts) (some pos) pts bound
          (receives + 1)
      else InnerResult.ok (pts :: rest) pos current prevPts lastFrame
        framePts receives

/-- The target-scanning loop of `decode_video_from_frame_nums`
(lines 646-747).  `fuel` is the number of output slots still to fill
(`num_requested_frames - out_frame_index`, which the `for` loop counts
down). -/
def scan_targets (fuel : Nat) (stream : List Int) (pos : Nat)
    (current prevPts : Int) (lastFrame : Option Nat) (framePts : Int)
    (frame_numbers : Nat → Int) (out : Nat) (nb_frames time_unit : Int)
    (use_frame : Bool) (packed : List (Option Nat)) (receives : Nat) :
    DecodeResult :=
  match fuel with
  | 0 => ⟨packed, receives, false, 0, false⟩
  | fuel + 1 =>
    if ¬(frame_numbers out ≥ current ∧ frame_numbers out ≥ 0) then
      ⟨packed, receives, false, 0, true⟩
    else if frame_numbers out > nb_frames then
      ⟨packed, receives, true, out, false⟩
    else
      match (if use_frame then
               scan_avg stream pos current prevPts lastFrame framePts
                 (frame_numbers out) receives
             else
               scan_raw stream pos current prevPts lastFrame framePts
                 (frame_numbers out * time_unit) receives) with
      | InnerResult.eof rc => ⟨packed, rc, true, out, false⟩
      | InnerResult.ok stream2 pos2 current2 prevPts2 lastFrame2 framePts2
          rc =>
          scan_targets fuel stream2 pos2 current2 prevPts2 lastFrame2
            framePts2 frame_numbers (out + 1) nb_frames time_unit use_frame
            (packed ++ [lastFrame2]) rc

/-- `decode_video_from_frame_nums` (lines 525-753) at the frame/event level.
The stream is the list of PTS values the decoder yields in decode order;
`seekLand` is the stream position the backward keyframe seek of line 583
lands on (an external effect of `av_seek_frame`); `initFramePts` is the PTS
field of the reused frame handle before any decode. -/
def decode_video_from_frame_nums (stream : List Int) (seekLand : Nat)
    (nb_frames duration tb_num tb_den initFramePts : Int)
    (num_requested_frames : Int) (frame_numbers : Nat → Int)
    (should_seek use_frame : Bool) : DecodeResult :=
  if num_requested_frames ≤ 0 then ⟨[], 0, false, 0, false⟩
  else
    let time_unit := tb_den.tdiv tb_num
    if should_seek then
      let avg_frame_duration := duration.tdiv nb_frames
      match stream.drop seekLand with
      | [] => ⟨[], 1, false, 0, false⟩
      | pts :: rest =>
        match seek_prologue pts avg_frame_duration time_unit
            (frame_numbers 0) use_frame with
        | none => ⟨[], 1, false, 0, true⟩
        | some (current, prevPts, outIndex) =>
          scan_targets (num_requested_frames.toNat - outIndex) rest
            (seekLand + 1) current prevPts (some seekLand) pts
            frame_numbers outIndex nb_frames time_unit use_frame
            (if outIndex = 1 then [some seekLand] else []) 1
    else
      scan_targets num_requested_frames.toNat stream 0 0 0 none initFramePts
        frame_numbers 0 nb_frames time_unit use_frame [] 0

/-- The frame loop of `decode_video_to_out_buffer` (lines 245-266): decode
and pack one frame per iteration; on end of stream invoke the padding
routine with the current loop counter (= `packed.length`). -/
def decode_to_out_go (fuel : Nat) (stream : List Int) (pos : Nat)
    (packed : List (Option Nat)) (receives : Nat) : DecodeResult :=
  match fuel, stream with
  | 0, _ => ⟨packed, receives, false, 0, false⟩
  | _ + 1, [] => ⟨packed, receives + 1, true, packed.length, false⟩
  | fuel + 1, _pts :: rest =>
      decode_to_out_go fuel rest (pos + 1) (packed ++ [some pos])
        (receives + 1)

/-- `decode_video_to_out_buffer` (lines 221-272) at the frame/event level. -/
def decode_video_to_out_buffer (stream : List Int)
    (num_requested_frames : Int) : DecodeResult :=
  decode_to_out_go num_requested_frames.toNat stream 0 [] 0

/-- The concrete 100-frame stream of the C3 scenario: strictly increasing
PTS values 1, 2, ..., 100. -/
def ptsStream : List Int := (List.range 100).map (fun i => (i : Int) + 1)

/-- The C3 scenario's target list [5, 5, 6, 20] as an index function. -/
def targetsDup : Nat → Int := fun i => ([5, 5, 6, 20] : List Int).getD i 0

/-- FFmpeg's `AV_NOPTS_VALUE` sentinel (`INT64_MIN`), used by
`seek_to_closest_keypoint` to mean "no seek". -/
def AV_NOPTS_VALUE : Int := -(2 ^ 63)

/-- The target-frame draw of `seek_to_closest_keypoint` (lines 460-477):
`none` is the "no seek" sentinel path, `some t` the chosen target frame
index.  `r` models the non-negative value returned by `rand()`; for
non-negative operands C `%` agrees with `Int.emod`. -/
def seek_target (r : Nat) (nb_frames : Int) (num_requested_frames : Nat) :
    Option Int :=
  let valid_seek_frame_limit : Int := nb_frames - num_requested_frames
  if valid_seek_frame_limit ≤ 0 then none
  else
    let timestamp := (r : Int) % (valid_seek_frame_limit + 1)
    if timestamp = 0 then none else some (timestamp - 1)

/-- `seek_to_closest_keypoint` (lines 439-505) restricted to its returned
timestamp.  `av_rescale_rnd(t, duration, nb_frames, AV_ROUND_DOWN)` rounds
toward negative infinity, hence `Int.fdiv`; `start_time` is the stream
start time already defaulted to 0 when unknown (lines 455-458). -/
def seek_to_closest_keypoint (r : Nat) (nb_frames duration start_time : Int)
    (should_random_seek : Bool) (num_requested_frames : Nat) : Int :=
  if ¬should_random_seek then 0
  else
    match seek_target r nb_frames num_requested_frames with
    | none => AV_NOPTS_VALUE
    | some t => (t * duration).fdiv nb_frames + start_time

/-- Standard `whence` codes received by `seek_memory` via FFmpeg's AVIO
callback: `SEEK_SET = 0`, `SEEK_CUR = 1`, `SEEK_END = 2`,
`AVSEEK_SIZE = 0x10000`. -/
def SEEK_SET : Int := 0

def SEEK_CUR : Int := 1

def SEEK_END : Int := 2

def AVSEEK_SIZE : Int := 65536

/-- `seek_memory` (lines 291-314): returns the updated cursor state and the
function's return value. -/
def seek_memory (offset_bytes total_size_bytes : Int) (offset64 : Int)
    (whence : Int) : Int × Int :=
  let offset := int32_trunc offset64
  if whence = SEEK_CUR then
    (offset_bytes + offset, offset_bytes + offset)
  else if whence = SEEK_END then
    (total_size_bytes - offset, total_size_bytes - offset)
  else if whence = SEEK_SET then
    (offset, offset)
  else if whence = AVSEEK_SIZE then
    (offset_bytes, total_size_bytes)
  else
    (offset_bytes, offset_bytes)

/-- `read_memory` (lines 274-289): the source blob is `src` (indexed by
absolute byte position), the cursor is `offset_bytes`, and `dest` is the
caller's buffer.  Returns the updated destination buffer, the updated
cursor, and the function's return value. -/
def read_memory (src : Int → Nat) (total_size_bytes offset_bytes : Int)
    (dest : Nat → Nat) (buf_size_bytes : Int) :
    (Nat → Nat) × Int × Int :=
  let bytes_remaining := total_size_bytes - offset_bytes
  let len := if bytes_remaining < buf_size_bytes then bytes_remaining
             else buf_size_bytes
  (fun i => if (i : Int) < len then src (offset_bytes + i) else dest i,
   offset_bytes + len, len)

theorem memcpyF_lo (buf : Nat → Nat) (dstOff len i : Nat) (h : i < dstOff) :
    memcpyF buf dstOff len i = buf i := by
  simp only [memcpyF]
  rw [if_neg]
  omega

theorem memcpyF_hi (buf : Nat → Nat) (dstOff len i : Nat)
    (h : dstOff + len ≤ i) : memcpyF buf dstOff len i = buf i := by
  simp only [memcpyF]
  rw [if_neg]
  omega

theorem memcpyF_mid (buf : Nat → Nat) (dstOff len i : Nat)
    (h1 : dstOff ≤ i) (h2 : i < dstOff + len) :
    memcpyF buf dstOff len i = buf (i - dstOff) := by
  simp only [memcpyF]
  rw [if_pos ⟨h1, h2⟩]

theorem mul_add_lt_mul {a b r c : Nat} (hab : a < b) (hr : r < c) :
    a * c + r < b * c := by
  calc a * c + r < a * c + c := by omega
    _ = (a + 1) * c := by ring
    _ ≤ b * c := Nat.mul_le_mul_right c hab

/-- Effect of one `memcpy(dest + copied_bytes, dest, c * bpf)` iteration of the
padding loop on the three buffer-region invariants: the first `k` frames are
the original ones, everything at or beyond the write position is untouched,
and every already-written frame `k + j` equals original frame `j % k`. -/
theorem copyStep (dest D : Nat → Nat) (k bpf W c : Nat)
    (hk : 1 ≤ k) (hkW : k ≤ W) (hdvd : k ∣ W) (hck : c ≤ k)
    (hD1 : ∀ i, i < k * bpf → D i = dest i)
    (hD2 : ∀ i, W * bpf ≤ i → D i = dest i)
    (hD3 : ∀ j r0, k + j < W → r0 < bpf →
      D ((k + j) * bpf + r0) = dest (j % k * bpf + r0)) :
    (∀ i, i < k * bpf → memcpyF D (W * bpf) (c * bpf) i = dest i) ∧
    (∀ i, (W + c) * bpf ≤ i → memcpyF D (W * bpf) (c * bpf) i = dest i) ∧
    (∀ j r0, k + j < W + c → r0 < bpf →
      memcpyF D (W * bpf) (c * bpf) ((k + j) * bpf + r0)
        = dest (j % k * bpf + r0)) := by
  have hkWb : k * bpf ≤ W * bpf := Nat.mul_le_mul_right bpf hkW
  refine ⟨?_, ?_, ?_⟩
  · intro i hi
    rw [memcpyF_lo _ _ _ _ (by omega)]
    exact hD1 i hi
  · intro i hi
    rw [Nat.add_mul] at hi
    rw [memcpyF_hi _ _ _ _ (by omega)]
    exact hD2 i (by omega)
  · intro j r0 hj hr0
    by_cases hcase : k + j < W
    · have hlow : (k + j) * bpf + r0 < W * bpf := by
        have := mul_add_lt_mul (a := k + j) (b := W) (c := bpf) hcase hr0
        omega
      rw [memcpyF_lo _ _ _ _ hlow]
      exact hD3 j r0 hcase hr0
    · have hWkj : W ≤ k + j := by omega
      have ht : k + j - W < c := by omega
      have hsplit : (k + j) * bpf = W * bpf + (k + j - W) * bpf := by
        rw [← Nat.add_mul]
        congr 1
        omega
      have hin1 : W * bpf ≤ (k + j) * bpf + r0 := by omega
      have hin2 : (k + j) * bpf + r0 < W * bpf + c * bpf := by
        have := mul_add_lt_mul (a := k + j - W) (b := c) (c := bpf) ht hr0
        omega
      rw [memcpyF_mid _ _ _ _ hin1 hin2]
      have hidx : (k + j) * bpf + r0 - W * bpf = (k + j - W) * bpf + r0 := by
        omega
      rw [hidx]
      have hlt2 : (k + j - W) * bpf + r0 < k * bpf := by
        have := mul_add_lt_mul (a := k + j - W) (b := k) (c := bpf) (by omega) hr0
        omega
      rw [hD1 _ hlt2]
      have hmod : j % k = k + j - W := by
        obtain ⟨v, hv⟩ := hdvd
        have hv1 : 1 ≤ v := by
          rcases Nat.eq_zero_or_pos v with h0 | h1
          · subst h0
            rw [Nat.mul_zero] at hv
            omega
          · exact h1
        have hkv : k * v = k * (v - 1) + k := by
          obtain ⟨w, rfl⟩ : ∃ w, v = w + 1 := ⟨v - 1, by omega⟩
          simp only [Nat.add_sub_cancel]
          ring
        set t := k + j - W with htdef
        have hj' : j = k * (v - 1) + t := by omega
        rw [hj', Nat.mul_add_mod]
        exact Nat.mod_eq_of_lt (by omega)
      rw [hmod]

/-- The buffer-region invariants are preserved by the whole padding loop,
by induction on a fuel bound for the remaining frame count. -/
theorem loopCopy_spec (k bpf : Nat) (dest : Nat → Nat) (hk : 1 ≤ k) :
    ∀ (fuel : Nat) (rem : Int) (D : Nat → Nat) (W : Nat),
      rem.toNat ≤ fuel → 1 ≤ rem → k ≤ W → k ∣ W →
      (∀ i, i < k * bpf → D i = dest i) →
      (∀ i, W * bpf ≤ i → D i = dest i) →
      (∀ j r0, k + j < W → r0 < bpf →
        D ((k + j) * bpf + r0) = dest (j % k * bpf + r0)) →
      (∀ i, i < k * bpf → loopCopy D (W * bpf) (k * bpf) rem k bpf i = dest i) ∧
      (∀ i, (W + rem.toNat) * bpf ≤ i →
        loopCopy D (W * bpf) (k * bpf) rem k bpf i = dest i) ∧
      (∀ j r0, k + j < W + rem.toNat → r0 < bpf →
        loopCopy D (W * bpf) (k * bpf) rem k bpf ((k + j) * bpf + r0)
          = dest (j % k * bpf + r0)) := by
  intro fuel
  induction fuel with
  | zero =>
    intro rem D W hfuel hrem
    omega
  | succ fuel ih =>
    intro rem D W hfuel hrem hkW hdvd hD1 hD2 hD3
    by_cases hlt : rem < (k : Int)
    · -- last (partial) copy of rem.toNat frames, then the loop exits
      have hrw : loopCopy D (W * bpf) (k * bpf) rem k bpf
          = memcpyF D (W * bpf) (rem.toNat * bpf) := by
        conv_lhs => rw [loopCopy]
        rw [dif_pos ⟨by omega, by omega⟩]
        simp only [if_pos hlt]
        rw [loopCopy, dif_neg (by omega : ¬(0 < rem - (k : Int) ∧ 0 < k))]
      rw [hrw]
      exact copyStep dest D k bpf W rem.toNat hk hkW hdvd (by omega)
        hD1 hD2 hD3
    · -- copy a full cycle of k frames
      have hrw : loopCopy D (W * bpf) (k * bpf) rem k bpf
          = loopCopy (memcpyF D (W * bpf) (k * bpf)) (W * bpf + k * bpf)
              (k * bpf) (rem - k) k bpf := by
        conv_lhs => rw [loopCopy]
        rw [dif_pos ⟨by omega, by omega⟩]
        simp only [if_neg hlt]
      obtain ⟨h1, h2, h3⟩ := copyStep dest D k bpf W k hk hkW hdvd le_rfl
        hD1 hD2 hD3
      rw [hrw]
      by_cases hend : rem - (k : Int) ≤ 0
      · -- rem = k exactly: next guard fails, loop returns
        have hrw2 : loopCopy (memcpyF D (W * bpf) (k * bpf))
            (W * bpf + k * bpf) (k * bpf) (rem - k) k bpf
            = memcpyF D (W * bpf) (k * bpf) := by
          rw [loopCopy, dif_neg (by omega : ¬(0 < rem - (k : Int) ∧ 0 < k))]
        rw [hrw2]
        have hWr : W + rem.toNat = W + k := by omega
        rw [hWr]
        exact ⟨h1, h2, h3⟩
      · -- rem > k: recurse with W + k written frames
        have hkk : W * bpf + k * bpf = (W + k) * bpf := (Nat.add_mul W k bpf).symm
        rw [hkk]
        have := ih (rem - k) (memcpyF D (W * bpf) (k * bpf)) (W + k)
          (by omega) (by omega) (by omega) (by
            obtain ⟨v, hv⟩ := hdvd
            exact ⟨v + 1, by rw [hv]; ring⟩)
          h1 (fun i hi => h2 i (by omega)) h3
        have hWr : W + k + (rem - (k : Int)).toNat = W + rem.toNat := by omega
        rw [hWr] at this
        exact this

/-- Claim C1: calling `loop_to_buffer_end` with `k ≥ 1` frames already
written at their packed positions (`copied_bytes = k * bytes_per_frame`) and
`n = num_requested_frames > k` leaves the buffer holding exactly `n` frames
worth of bytes: frame `k + j` equals frame `j % k` byte-for-byte for every
`j` with `k + j < n`, bytes at or past `n * bytes_per_frame` are untouched,
and the first `k` frames are unchanged.  The range hypotheses record the
32-bit regime of the C `int32_t`/`uint32_t` quantities, in which the `Nat`
embedding is exact. -/
theorem C1_padding_correctness (dest : Nat → Nat) (k bpf : Nat) (n : Int)
    (hk : 1 ≤ k) (hkn : (k : Int) < n)
    (hn32 : n < 2 ^ 31) (hsz : n.toNat * bpf < 2 ^ 32) :
    (loop_to_buffer_end dest (k * bpf) k bpf n).noFramesError = false ∧
    (∀ j r0 : Nat, (k : Int) + j < n → r0 < bpf →
      (loop_to_buffer_end dest (k * bpf) k bpf n).buf ((k + j) * bpf + r0)
        = dest (j % k * bpf + r0)) ∧
    (∀ i, n.toNat * bpf ≤ i →
      (loop_to_buffer_end dest (k * bpf) k bpf n).buf i = dest i) ∧
    (∀ i, i < k * bpf →
      (loop_to_buffer_end dest (k * bpf) k bpf n).buf i = dest i) := by
  have hne : k ≠ 0 := by omega
  have hbuf : (loop_to_buffer_end dest (k * bpf) k bpf n).buf
      = loopCopy dest (k * bpf) (k * bpf) (n - k) k bpf := by
    rw [loop_to_buffer_end, if_neg hne]
  have herr : (loop_to_buffer_end dest (k * bpf) k bpf n).noFramesError
      = false := by
    rw [loop_to_buffer_end, if_neg hne]
  obtain ⟨h1, h2, h3⟩ := loopCopy_spec k bpf dest hk (n - k).toNat (n - k)
    dest k le_rfl (by omega) le_rfl dvd_rfl
    (fun i _ => rfl) (fun i _ => rfl)
    (fun j r0 hj _ => absurd hj (by omega))
  have hWn : k + (n - (k : Int)).toNat = n.toNat := by omega
  rw [hWn] at h2 h3
  refine ⟨herr, ?_, ?_, ?_⟩
  · intro j r0 hj hr0
    rw [hbuf]
    exact h3 j r0 (by omega) hr0
  · intro i hi
    rw [hbuf]
    exact h2 i hi
  · intro i hi
    rw [hbuf]
    exact h1 i hi

/-- Witness for C1 at `k = 2`, `bpf = 1`, `n = 5` on the buffer `i ↦ i`:
frame 4 of the padded buffer equals frame `2 % 2 = 0`. -/
theorem C1_padding_witness :
    (loop_to_buffer_end (fun i => i) (2 * 1) 2 1 5).noFramesError = false ∧
    (loop_to_buffer_end (fun i => i) (2 * 1) 2 1 5).buf ((2 + 2) * 1 + 0)
      = (fun i : Nat => i) (2 % 2 * 1 + 0) := by
  obtain ⟨a, b, -, -⟩ := C1_padding_correctness (fun i => i) 2 1 5
    (by norm_num) (by norm_num) (by norm_num) (by norm_num)
  exact ⟨a, b 2 0 (by norm_num) (by norm_num)⟩

/-- Claim C6: when the padding operation is invoked with zero frames already
written (`frame_number = 0`), it reports "no frames available" and writes
nothing: the destination buffer is byte-for-byte unchanged. -/
theorem C6_pad_zero_frames_hard_failure (dest : Nat → Nat)
    (copied_bytes bytes_per_frame : Nat) (num_requested_frames : Int) :
    (loop_to_buffer_end dest copied_bytes 0 bytes_per_frame
        num_requested_frames).noFramesError = true ∧
    ∀ i, (loop_to_buffer_end dest copied_bytes 0 bytes_per_frame
        num_requested_frames).buf i = dest i := by
  constructor
  · rfl
  · intro i
    rfl

/-- Counterexample to claim C2: in average-duration mode with PTS 100,
average frame duration 10, and first target 5, the index reconstructed from
the PTS is 100 / 10 = 10, which exceeds the target — yet no assertion
fires: the code clamps the index to 5 (lines 611-612) before the assert, so
the bound violation is silently coerced rather than fatal. -/
theorem C2_counterexample :
    Int.tdiv 100 10 > 5 ∧ reconcile 100 10 1 5 true = some 5 := by
  constructor
  · decide
  · decide

/-- Claim C2 (amended): after the seek exactly one frame's index is
reconstructed from its PTS.  In the `int32_t` regime — the PTS (narrowed at
line 615) and the quotient `pts / avg_frame_duration` (narrowed at
line 610) within `int32_t` range, so the narrowing is the identity — the
behavior is: in raw-timebase mode the index is `pts / time_unit` and a
violation of `index ≤ frame_numbers[0]` is a fatal assertion failure; in
average-duration mode the index is silently clamped to
`min (pts / avg_frame_duration) frame_numbers[0]`, so the bound always
holds by coercion and the assertion never fires.  (Outside that regime the
wrapped `int32_t` value, not the mathematical quotient, is what is clamped
or asserted on.) -/
theorem C2_seek_reconstruction_amended (pts avg time_unit fn0 : Int)
    (hpts : -(2 ^ 31) ≤ pts ∧ pts < 2 ^ 31)
    (hq : -(2 ^ 31) ≤ pts.tdiv avg ∧ pts.tdiv avg < 2 ^ 31) :
    reconcile pts avg time_unit fn0 true
      = some (min (pts.tdiv avg) fn0) ∧
    (∀ idx, reconcile pts avg time_unit fn0 true = some idx → idx ≤ fn0) ∧
    (∀ idx, reconcile pts avg time_unit fn0 false = some idx →
      idx = pts.tdiv time_unit ∧ idx ≤ fn0) ∧
    (fn0 < pts.tdiv time_unit →
      reconcile pts avg time_unit fn0 false = none) := by
  have htrq : int32_trunc (pts.tdiv avg) = pts.tdiv avg := by
    rw [int32_trunc]
    omega
  have htrp : int32_trunc pts = pts := by
    rw [int32_trunc]
    omega
  have havg : reconcile pts avg time_unit fn0 true
      = some (min (pts.tdiv avg) fn0) := by
    show (if (if int32_trunc (pts.tdiv avg) > fn0 then fn0
              else int32_trunc (pts.tdiv avg)) ≤ fn0 then
            some (if int32_trunc (pts.tdiv avg) > fn0 then fn0
                  else int32_trunc (pts.tdiv avg))
          else none) = some (min (pts.tdiv avg) fn0)
    rw [htrq]
    by_cases h1 : pts.tdiv avg > fn0
    · rw [if_pos h1, if_pos (le_refl fn0), min_eq_right (le_of_lt h1)]
    · rw [if_neg h1, if_pos (show pts.tdiv avg ≤ fn0 by omega),
        min_eq_left (show pts.tdiv avg ≤ fn0 by omega)]
  refine ⟨havg, ?_, ?_, ?_⟩
  · intro idx h
    rw [havg] at h
    injection h with h
    exact h ▸ min_le_right (pts.tdiv avg) fn0
  · intro idx h
    replace h : (if (int32_trunc pts).tdiv time_unit ≤ fn0 then
        some ((int32_trunc pts).tdiv time_unit) else none) = some idx := h
    rw [htrp] at h
    by_cases hb : pts.tdiv time_unit ≤ fn0
    · rw [if_pos hb] at h
      injection h with h
      omega
    · rw [if_neg hb] at h
      exact Option.noConfusion h
  · intro hviol
    show (if (int32_trunc pts).tdiv time_unit ≤ fn0 then
        some ((int32_trunc pts).tdiv time_unit) else none) = none
    rw [htrp, if_neg (show ¬pts.tdiv time_unit ≤ fn0 by omega)]

/-- Witness for C2 (amended) at PTS 100, average duration 10, time unit 10,
first target 5 (all within `int32_t` range): the average-duration path
silently coerces to 5 while the raw-timebase path hits the assertion. -/
theorem C2_seek_reconstruction_witness :
    reconcile 100 10 10 5 true = some 5 ∧
    reconcile 100 10 10 5 false = none := by
  have h := C2_seek_reconstruction_amended 100 10 10 5 (by decide)
    (by decide)
  refine ⟨?_, h.2.2.2 (by decide)⟩
  rw [h.1]
  decide

theorem advance_step_le (current prevPts pts : Int) :
    current ≤ (advance_step current prevPts pts).1 := by
  rw [advance_step]
  split_ifs <;> simp

/-- The running counter of the average-duration scan never decreases over
any run of the inner loop. -/
theorem scan_avg_current_mono (stream : List Int) :
    ∀ pos current prevPts lastFrame framePts desired receives stream2 pos2
      current2 prevPts2 lastFrame2 framePts2 receives2,
      scan_avg stream pos current prevPts lastFrame framePts desired
          receives
        = InnerResult.ok stream2 pos2 current2 prevPts2 lastFrame2 framePts2
            receives2 →
      current ≤ current2 := by
  induction stream with
  | nil =>
    intro pos current prevPts lastFrame framePts desired receives s2 p2 c2
      pp2 lf2 fp2 r2 h
    simp only [scan_avg] at h
    split_ifs at h
    injection h with hs hp hc2 hpp hlf hfp hr
    exact le_of_eq hc2
  | cons pts rest ih =>
    intro pos current prevPts lastFrame framePts desired receives s2 p2 c2
      pp2 lf2 fp2 r2 h
    simp only [scan_avg] at h
    split_ifs at h with hc
    · exact le_trans (advance_step_le current prevPts pts)
        (ih _ _ _ _ _ _ _ _ _ _ _ _ _ _ h)
    · injection h with hs hp hc2 hpp hlf hfp hr
      exact le_of_eq hc2

/-- Claim C5: in the average-duration-mode scan loop the running frame-index
counter is non-decreasing across scanned frames, and a decoded frame
advances it exactly when its PTS is strictly greater than the PTS at which
the counter last advanced; a frame with PTS at or below that value never
advances it. -/
theorem C5_counter_monotone :
    (∀ current prevPts pts : Int,
      current ≤ (advance_step current prevPts pts).1) ∧
    (∀ current prevPts pts : Int,
      (advance_step current prevPts pts).1 = current + 1 ↔ pts > prevPts) ∧
    (∀ current prevPts pts : Int,
      ¬pts > prevPts → (advance_step current prevPts pts).1 = current) ∧
    (∀ stream pos current prevPts lastFrame framePts desired receives
        stream2 pos2 current2 prevPts2 lastFrame2 framePts2 receives2,
      scan_avg stream pos current prevPts lastFrame framePts desired
          receives
        = InnerResult.ok stream2 pos2 current2 prevPts2 lastFrame2 framePts2
            receives2 →
      current ≤ current2) := by
  refine ⟨advance_step_le, ?_, ?_, ?_⟩
  · intro current prevPts pts
    rw [advance_step]
    split_ifs with h
    · simpa using h
    · simp only []
      constructor
      · intro he
        omega
      · intro he
        exact absurd he h
  · intro current prevPts pts h
    rw [advance_step, if_neg h]
  · intro stream pos current prevPts lastFrame framePts desired receives s2
      p2 c2 pp2 lf2 fp2 r2 h
    exact scan_avg_current_mono stream pos current prevPts lastFrame
      framePts desired receives s2 p2 c2 pp2 lf2 fp2 r2 h

/-- Witness for C5: a concrete two-frame scan with strictly increasing PTS
advances the counter from 0 to 2. -/
theorem C5_counter_monotone_witness : (0 : Int) ≤ 2 :=
  C5_counter_monotone.2.2.2 [1, 2] 0 0 0 none 0 1 0 [] 2 2 2 (some 1) 2 2
    rfl

/-- Counterexample to claim C3: on the 100-frame stream with strictly
increasing PTS 1..100, in average-duration mode without seeking, the target
list [5, 5, 6, 20] makes the precondition assertion fire — contrary to the
claim that no assertion fires for this list. -/
theorem C3_counterexample :
    (decode_video_from_frame_nums ptsStream 0 100 1000 1 1000 0 4 targetsDup
      false true).assertFailed = true := by
  rfl

/-- Claim C3 (amended): on the 100-frame stream with strictly increasing
PTS 1..100, average-duration mode, no seek, target list [5, 5, 6, 20]:
decoding proceeds frame-by-frame from 0 (6 decode calls) and stream frame 5
is packed into output slot 0; but satisfying target 5 leaves the running
frame-index counter at 6, so the duplicated target 5 violates the sampler's
precondition (`desired_frame_num >= current_frame_index`) and the assertion
fires; slots 1-3 are never filled and no padding occurs. -/
theorem C3_duplicate_target_amended :
    decode_video_from_frame_nums ptsStream 0 100 1000 1 1000 0 4 targetsDup
      false true
      = ⟨[some 5], 6, false, 0, true⟩ := by
  rfl

/-- Claim C8: a request for `num_requested_frames ≤ 0` is a no-op for both
sampling entry points: nothing is packed, no padding happens, no assertion
fires, and no `receive_frame` call is made. -/
theorem C8_degenerate_no_op (stream : List Int) (seekLand : Nat)
    (nb_frames duration tb_num tb_den initFramePts n : Int)
    (frame_numbers : Nat → Int) (should_seek use_frame : Bool)
    (hn : n ≤ 0) :
    decode_video_from_frame_nums stream seekLand nb_frames duration tb_num
      tb_den initFramePts n frame_numbers should_seek use_frame
      = ⟨[], 0, false, 0, false⟩ ∧
    decode_video_to_out_buffer stream n = ⟨[], 0, false, 0, false⟩ := by
  constructor
  · rw [decode_video_from_frame_nums, if_pos hn]
  · rw [decode_video_to_out_buffer, show n.toNat = 0 by omega]
    rfl

/-- Witness for C8 at `n = 0` on a one-frame stream. -/
theorem C8_degenerate_witness :
    decode_video_from_frame_nums [3] 0 1 1 1 1 0 0 (fun _ => 0) false true
      = ⟨[], 0, false, 0, false⟩ ∧
    decode_video_to_out_buffer [3] 0 = ⟨[], 0, false, 0, false⟩ :=
  C8_degenerate_no_op [3] 0 1 1 1 1 0 0 (fun _ => 0) false true (le_refl 0)

/-- The scanning loop only ever appends to the already-packed prefix. -/
theorem scan_targets_packed_prefix (fuel : Nat) :
    ∀ stream pos (current prevPts : Int) lastFrame (framePts : Int)
      (frame_numbers : Nat → Int) out (nb_frames time_unit : Int)
      use_frame packed receives, ∃ tail,
      (scan_targets fuel stream pos current prevPts lastFrame framePts
        frame_numbers out nb_frames time_unit use_frame packed
        receives).packed = packed ++ tail := by
  induction fuel with
  | zero =>
    intro stream pos current prevPts lastFrame framePts fns out nb tu uf
      packed rc
    exact ⟨[], by simp [scan_targets]⟩
  | succ fuel ih =>
    intro stream pos current prevPts lastFrame framePts fns out nb tu uf
      packed rc
    rw [scan_targets]
    by_cases h1 : ¬(fns out ≥ current ∧ fns out ≥ 0)
    · rw [if_pos h1]
      exact ⟨[], by simp⟩
    · rw [if_neg h1]
      by_cases h2 : fns out > nb
      · rw [if_pos h2]
        exact ⟨[], by simp⟩
      · rw [if_neg h2]
        cases hinner : (if uf then scan_avg stream pos current prevPts
            lastFrame framePts (fns out) rc
          else scan_raw stream pos current prevPts lastFrame framePts
            (fns out * tu) rc) with
        | eof rc2 =>
          exact ⟨[], by simp⟩
        | ok s2 p2 c2 pp2 lf2 fp2 r2 =>
          obtain ⟨t, ht⟩ := ih s2 p2 c2 pp2 lf2 fp2 fns (out + 1) nb tu uf
            (packed ++ [lf2]) r2
          refine ⟨[lf2] ++ t, ?_⟩
          rw [← List.append_assoc]
          exact ht

/-- Claim C7: with a seek, if the frame index reconstructed from the first
post-seek decoded frame equals the first requested target exactly, that
already-decoded frame is packed immediately as output frame 0 — the output
frame counter enters the scan loop at 1 and output slot 0 holds the
seek-landed frame. -/
theorem C7_exact_landing_packs_first (stream : List Int) (seekLand : Nat)
    (nb_frames duration tb_num tb_den initFramePts n : Int)
    (frame_numbers : Nat → Int) (use_frame : Bool) (pts : Int)
    (rest : List Int) (hn : 1 ≤ n)
    (hdrop : stream.drop seekLand = pts :: rest)
    (hrec : reconcile pts (duration.tdiv nb_frames) (tb_den.tdiv tb_num)
        (frame_numbers 0) use_frame
      = some (frame_numbers 0)) :
    seek_prologue pts (duration.tdiv nb_frames) (tb_den.tdiv tb_num)
        (frame_numbers 0) use_frame
      = some (frame_numbers 0 + 1, pts, 1) ∧
    (decode_video_from_frame_nums stream seekLand nb_frames duration tb_num
        tb_den initFramePts n frame_numbers true use_frame).packed.head?
      = some (some seekLand) := by
  have hpro : seek_prologue pts (duration.tdiv nb_frames)
      (tb_den.tdiv tb_num) (frame_numbers 0) use_frame
      = some (frame_numbers 0 + 1, pts, 1) := by
    rw [seek_prologue, hrec]
    simp
  refine ⟨hpro, ?_⟩
  rw [decode_video_from_frame_nums, if_neg (show ¬n ≤ 0 by omega)]
  simp only [hdrop, hpro, if_true, eq_self_iff_true]
  obtain ⟨t, ht⟩ := scan_targets_packed_prefix (n.toNat - 1) rest
    (seekLand + 1) (frame_numbers 0 + 1) pts (some seekLand) pts
    frame_numbers 1 nb_frames (tb_den.tdiv tb_num) use_frame
    [some seekLand] 1
  rw [ht]
  rfl

/-- Witness for C7: a one-frame stream landing exactly on target 1 with
PTS 10 and average frame duration 10. -/
theorem C7_exact_landing_witness :
    seek_prologue 10 (Int.tdiv 100 10) (Int.tdiv 1 1) 1 true
      = some (2, 10, 1) ∧
    (decode_video_from_frame_nums [10] 0 10 100 1 1 0 1 (fun _ => 1) true
      true).packed.head? = some (some 0) := by
  have h := C7_exact_landing_packs_first [10] 0 10 100 1 1 0 1 (fun _ => 1)
    true 10 [] (le_refl 1) rfl (by decide)
  exact ⟨h.1, h.2⟩

/-- Claim C4: with random seeking enabled, the planner either returns the
"no seek" sentinel (always, when `T - R ≤ 0`), or the drawn target frame
index lies in `[0, T - R - 1]` and the seek timestamp is
`round_down(target * duration / T) + start_time`. -/
theorem C4_seek_planner_bounds (r : Nat) (T : Int) (R : Nat)
    (duration start_time : Int) :
    (T - R ≤ 0 →
      seek_to_closest_keypoint r T duration start_time true R
        = AV_NOPTS_VALUE) ∧
    (∀ t, seek_target r T R = some t →
      0 ≤ t ∧ t ≤ T - R - 1 ∧
      seek_to_closest_keypoint r T duration start_time true R
        = (t * duration).fdiv T + start_time) := by
  constructor
  · intro hle
    have hst : seek_target r T R = none := by
      show (if T - (R : Int) ≤ 0 then none
            else if (r : Int) % (T - (R : Int) + 1) = 0 then none
            else some ((r : Int) % (T - (R : Int) + 1) - 1)) = none
      rw [if_pos hle]
    show (match seek_target r T R with
          | none => AV_NOPTS_VALUE
          | some t => (t * duration).fdiv T + start_time) = AV_NOPTS_VALUE
    rw [hst]
  · intro t ht
    have h0 : ¬(T - (R : Int) ≤ 0) := by
      by_contra hc
      have hst : seek_target r T R = none := by
        show (if T - (R : Int) ≤ 0 then none
              else if (r : Int) % (T - (R : Int) + 1) = 0 then none
              else some ((r : Int) % (T - (R : Int) + 1) - 1)) = none
        rw [if_pos hc]
      rw [hst] at ht
      exact Option.noConfusion ht
    have hm0 : 0 ≤ (r : Int) % (T - (R : Int) + 1) :=
      Int.emod_nonneg _ (by omega)
    have hm1 : (r : Int) % (T - (R : Int) + 1) < T - (R : Int) + 1 :=
      Int.emod_lt_of_pos _ (by omega)
    have hexp : seek_target r T R
        = (if (r : Int) % (T - (R : Int) + 1) = 0 then none
           else some ((r : Int) % (T - (R : Int) + 1) - 1)) := by
      show (if T - (R : Int) ≤ 0 then none
            else if (r : Int) % (T - (R : Int) + 1) = 0 then none
            else some ((r : Int) % (T - (R : Int) + 1) - 1))
          = (if (r : Int) % (T - (R : Int) + 1) = 0 then none
             else some ((r : Int) % (T - (R : Int) + 1) - 1))
      rw [if_neg h0]
    rw [hexp] at ht
    by_cases hz : (r : Int) % (T - (R : Int) + 1) = 0
    · rw [if_pos hz] at ht
      exact Option.noConfusion ht
    · rw [if_neg hz] at ht
      injection ht with ht
      refine ⟨by omega, by omega, ?_⟩
      show (match seek_target r T R with
            | none => AV_NOPTS_VALUE
            | some t => (t * duration).fdiv T + start_time)
          = (t * duration).fdiv T + start_time
      rw [hexp, if_neg hz, ht]

/-- Witness for C4: with `T = 30, R = 30` the planner returns the sentinel;
with `T = 10, R = 3, rand() = 7` it draws target 6 = `7 % 8 - 1` and seeks
to `round_down(6 * 100 / 10) + 2`. -/
theorem C4_seek_planner_witness :
    seek_to_closest_keypoint 17 30 100 2 true 30 = AV_NOPTS_VALUE ∧
    (0 ≤ (6 : Int) ∧ (6 : Int) ≤ 10 - 3 - 1 ∧
      seek_to_closest_keypoint 7 10 100 2 true 3
        = ((6 : Int) * 100).fdiv 10 + 2) := by
  refine ⟨(C4_seek_planner_bounds 17 30 30 100 2).1 (by norm_num), ?_⟩
  have h := (C4_seek_planner_bounds 7 10 3 100 2).2 6 (by decide)
  exact ⟨h.1, by norm_num, h.2.2⟩

/-- Counterexample to claim C9: `SEEK_END` does not follow the standard
file-seek convention `total_size + offset`; the code computes
`total_size - offset` (line 301).  With cursor 0, total size 100 and
offset 5, the call returns 95, not 105. -/
theorem C9_counterexample :
    (seek_memory 0 100 5 SEEK_END).2 = 95 ∧ (95 : Int) ≠ 100 + 5 := by
  constructor
  · decide
  · decide

/-- Claim C9 (amended): `seek_memory` handles `SEEK_SET` and `SEEK_CUR` by
the standard conventions and returns the new cursor; `AVSEEK_SIZE` returns
the total size without moving the cursor; but `SEEK_END` sets the cursor to
`total_size - offset` (the offset is subtracted, not added).  The
hypotheses confine the 64-bit offset to `int32_t` range, within which the
truncation at line 294 is the identity. -/
theorem C9_seek_memory_amended (cur size off64 : Int)
    (hlo : -(2 ^ 31) ≤ off64) (hhi : off64 < 2 ^ 31) :
    seek_memory cur size off64 SEEK_SET = (off64, off64) ∧
    seek_memory cur size off64 SEEK_CUR = (cur + off64, cur + off64) ∧
    seek_memory cur size off64 SEEK_END = (size - off64, size - off64) ∧
    seek_memory cur size off64 AVSEEK_SIZE = (cur, size) := by
  have htr : int32_trunc off64 = off64 := by
    rw [int32_trunc]
    omega
  refine ⟨?_, ?_, ?_, ?_⟩ <;>
    simp [seek_memory, htr, SEEK_SET, SEEK_CUR, SEEK_END, AVSEEK_SIZE]

/-- Witness for C9 (amended) at cursor 3, size 100, offset 7. -/
theorem C9_seek_memory_witness :
    seek_memory 3 100 7 SEEK_SET = (7, 7) ∧
    seek_memory 3 100 7 SEEK_CUR = (3 + 7, 3 + 7) ∧
    seek_memory 3 100 7 SEEK_END = (100 - 7, 100 - 7) ∧
    seek_memory 3 100 7 AVSEEK_SIZE = (3, 100) :=
  C9_seek_memory_amended 3 100 7 (by norm_num) (by norm_num)

/-- Claim C10: with cursor at or before the end of the blob and a
non-negative request, `read_memory` returns
`min(max_len, total_size - offset)`, copies exactly that many bytes from
the blob starting at the cursor (never touching a source byte at or past
`total_size`, and leaving the rest of the destination unchanged), advances
the cursor by exactly that count, and at end of buffer returns 0 leaving
the cursor unchanged. -/
theorem C10_read_memory_bounds (src : Int → Nat) (total_size offset : Int)
    (dest : Nat → Nat) (maxLen : Int) (h0 : 0 ≤ offset)
    (h1 : offset ≤ total_size) (h2 : 0 ≤ maxLen) :
    (read_memory src total_size offset dest maxLen).2.2
      = min maxLen (total_size - offset) ∧
    (read_memory src total_size offset dest maxLen).2.1
      = offset + min maxLen (total_size - offset) ∧
    (∀ i : Nat, (i : Int) < min maxLen (total_size - offset) →
      (read_memory src total_size offset dest maxLen).1 i
        = src (offset + i) ∧ offset + i < total_size) ∧
    (∀ i : Nat, min maxLen (total_size - offset) ≤ (i : Int) →
      (read_memory src total_size offset dest maxLen).1 i = dest i) ∧
    (offset = total_size →
      (read_memory src total_size offset dest maxLen).2.2 = 0 ∧
      (read_memory src total_size offset dest maxLen).2.1 = offset) := by
  have hlen : (if total_size - offset < maxLen then total_size - offset
      else maxLen) = min maxLen (total_size - offset) := by
    split_ifs with h
    · rw [min_eq_right (by omega)]
    · rw [min_eq_left (by omega)]
  have hret : (read_memory src total_size offset dest maxLen).2.2
      = min maxLen (total_size - offset) := by
    show (if total_size - offset < maxLen then total_size - offset
      else maxLen) = min maxLen (total_size - offset)
    exact hlen
  have hoff : (read_memory src total_size offset dest maxLen).2.1
      = offset + min maxLen (total_size - offset) := by
    show offset + (if total_size - offset < maxLen then total_size - offset
      else maxLen) = offset + min maxLen (total_size - offset)
    rw [hlen]
  refine ⟨hret, hoff, ?_, ?_, ?_⟩
  · intro i hi
    constructor
    · show (if (i : Int) < (if total_size - offset < maxLen
          then total_size - offset else maxLen) then src (offset + i)
        else dest i) = src (offset + i)
      rw [hlen, if_pos hi]
    · have hmr := min_le_right maxLen (total_size - offset)
      omega
  · intro i hi
    show (if (i : Int) < (if total_size - offset < maxLen
        then total_size - offset else maxLen) then src (offset + i)
      else dest i) = dest i
    rw [hlen, if_neg (by omega)]
  · intro heq
    have h3 : total_size - offset = 0 := by omega
    constructor
    · rw [hret, h3, min_eq_right h2]
    · rw [hoff, h3, min_eq_right h2, add_zero]

/-- Witness for C10: a 10-byte blob read at cursor 8 with a 5-byte request
returns 2 bytes, the first being blob byte 8. -/
theorem C10_read_memory_witness :
    (read_memory (fun i => i.toNat) 10 8 (fun _ => 0) 5).2.2
      = min 5 (10 - 8) ∧
    (read_memory (fun i => i.toNat) 10 8 (fun _ => 0) 5).1 0
      = (fun i : Int => i.toNat) (8 + ((0 : Nat) : Int)) := by
  have h := C10_read_memory_bounds (fun i => i.toNat) 10 8 (fun _ => 0) 5
    (by norm_num) (by norm_num) (by norm_num)
  exact ⟨h.1, (h.2.2.1 0 (by decide)).1⟩

end VideoDecode
